import Mathlib

/-
Verification development for the NLI MCP server (src/nli_mcp.py).

The Python module is shallowly embedded: JSON-like Python values become the
inductive type PyVal, Python exceptions become the error side of Except PyErr,
and the two network collaborators (the search backend and the IIIF backend)
become oracle parameters that return either a decoded JSON document or the
message of the exception the HTTP client raised.  json.loads is modelled by an
executable recursive-descent parser (jsonLoads) and json.dumps by an executable
printer (jsonDumps); the whitespace produced by indent=2 in the source is
immaterial to every consumer (all consumers re-parse the text), so jsonDumps
prints compactly.  Float literals, \u escapes and non-ASCII lower-casing are
outside the model; no claim touches them.
-/

/-- Python/JSON values as they occur in the module: None, bool, int, str,
list and dict (a dict is an insertion-ordered association list with unique
keys; jsonLoads overwrites duplicates the way the Python dict constructor
does). -/
inductive PyVal where
  | none
  | bool (b : Bool)
  | int (n : Int)
  | str (s : String)
  | list (xs : List PyVal)
  | dict (kvs : List (String × PyVal))

/-- A Python dict payload. -/
abbrev PyDict := List (String × PyVal)

/-- d.get(key): first binding of the key, if any (modelled dicts keep keys
unique, so first = only). -/
def dictGet (d : PyDict) (key : String) : Option PyVal :=
  (d.find? (fun kv => kv.1 = key)).map (fun kv => kv.2)

/-- dict assignment d[key] = v: overwrite in place, else append (Python
dicts keep the original insertion position on overwrite). -/
def dictSet (d : PyDict) (key : String) (v : PyVal) : PyDict :=
  if d.any (fun kv => kv.1 = key) then
    d.map (fun kv => if kv.1 = key then (kv.1, v) else kv)
  else d ++ [(key, v)]

/-- Python exceptions that the embedded code can raise. -/
inductive PyErr where
  | keyError
  | indexError
  | typeError
  | attributeError
  | valueError
  | recursionError
deriving DecidableEq

/-- str(e) for the modelled exceptions.  The source interpolates the
interpreter message into user-facing error texts; no claim depends on the
exact wording, so a short stable description is used. -/
def pyErrMsg : PyErr → String
  | .keyError => "KeyError"
  | .indexError => "IndexError"
  | .typeError => "TypeError"
  | .attributeError => "AttributeError"
  | .valueError => "ValueError"
  | .recursionError => "RecursionError"

/-- Whitespace characters stripped by str.strip and skipped by json. -/
def isWsChar (c : Char) : Bool :=
  c = ' ' || c = '\t' || c = '\n' || c = '\r'

/-- Drop leading whitespace from a character list. -/
def skipWs : List Char → List Char
  | [] => []
  | c :: cs => if isWsChar c then skipWs cs else c :: cs

/-- str.strip(): remove leading and trailing whitespace. -/
def pyStrip (s : String) : String :=
  String.mk ((skipWs ((skipWs s.data.reverse).reverse)))

/-- list₁ is a prefix of list₂ (over characters). -/
def charPrefix : List Char → List Char → Bool
  | [], _ => true
  | _ :: _, [] => false
  | a :: as, b :: bs => a = b && charPrefix as bs

/-- Python substring test: needle in hay. -/
def strContains (hay needle : String) : Bool :=
  go hay.data
where
  go : List Char → Bool
    | [] => charPrefix needle.data []
    | c :: cs => charPrefix needle.data (c :: cs) || go cs

/-- str.startswith for a single candidate. -/
def strStartsWith (s pre : String) : Bool :=
  charPrefix pre.data s.data

/-- str.endswith for a single candidate. -/
def strEndsWith (s suf : String) : Bool :=
  charPrefix suf.data.reverse s.data.reverse

/-- str.lower (ASCII letters, which is all the compared identifiers use). -/
def strLower (s : String) : String :=
  String.mk (s.data.map Char.toLower)

/-- The apostrophe character, used by the Python repr of str values. -/
def aposChar : Char := Char.ofNat 39

/-- repr escaping for the characters that matter here: backslash and the
apostrophe.  Python picks quote styles adaptively; the model always uses
apostrophes, which agrees with Python on every value the claims touch. -/
def reprEscape (s : String) : String :=
  String.mk (s.data.flatMap fun c =>
    if c = '\\' then ['\\', '\\']
    else if c = aposChar then ['\\', aposChar]
    else [c])

mutual

/-- Python str(v): the string itself for a str, repr for everything else. -/
def pyStr : PyVal → String
  | .str s => s
  | v => pyReprV v

/-- Python repr(v) for the embedded values. -/
def pyReprV : PyVal → String
  | .none => "None"
  | .bool true => "True"
  | .bool false => "False"
  | .int n => toString n
  | .str s => String.mk (aposChar :: (reprEscape s).data ++ [aposChar])
  | .list xs => "[" ++ pyReprItems xs ++ "]"
  | .dict kvs => "\x7b" ++ pyReprEntries kvs ++ "\x7d"

def pyReprItems : List PyVal → String
  | [] => ""
  | [x] => pyReprV x
  | x :: y :: rest => pyReprV x ++ ", " ++ pyReprItems (y :: rest)

def pyReprEntries : List (String × PyVal) → String
  | [] => ""
  | [(k, v)] => pyReprV (.str k) ++ ": " ++ pyReprV v
  | (k, v) :: e :: rest =>
      pyReprV (.str k) ++ ": " ++ pyReprV v ++ ", " ++ pyReprEntries (e :: rest)

end

/-- json string escaping (the characters relevant to the embedded texts). -/
def jsonEscape (s : String) : String :=
  String.mk (s.data.flatMap fun c =>
    if c = '"' then ['\\', '"']
    else if c = '\\' then ['\\', '\\']
    else if c = '\n' then ['\\', 'n']
    else if c = '\t' then ['\\', 't']
    else if c = '\r' then ['\\', 'r']
    else [c])

mutual

/-- json.dumps(v, ensure_ascii=False): executable printer.  The source
passes indent=2; every consumer of the produced text immediately re-parses
it, so the model prints the same document without the cosmetic whitespace. -/
def jsonDumps : PyVal → String
  | .none => "null"
  | .bool true => "true"
  | .bool false => "false"
  | .int n => toString n
  | .str s => "\"" ++ jsonEscape s ++ "\""
  | .list xs => "[" ++ jsonDumpsItems xs ++ "]"
  | .dict kvs => "\x7b" ++ jsonDumpsEntries kvs ++ "\x7d"

def jsonDumpsItems : List PyVal → String
  | [] => ""
  | [x] => jsonDumps x
  | x :: y :: rest => jsonDumps x ++ ", " ++ jsonDumpsItems (y :: rest)

def jsonDumpsEntries : List (String × PyVal) → String
  | [] => ""
  | [(k, v)] => "\"" ++ jsonEscape k ++ "\": " ++ jsonDumps v
  | (k, v) :: e :: rest =>
      "\"" ++ jsonEscape k ++ "\": " ++ jsonDumps v ++ ", " ++ jsonDumpsEntries (e :: rest)

end

/-- Longest leading digit run of a character list. -/
def takeDigits : List Char → (List Char × List Char)
  | [] => ([], [])
  | c :: cs =>
    if c.isDigit then
      let r := takeDigits cs
      (c :: r.1, r.2)
    else ([], c :: cs)

/-- Decimal digits to a natural number. -/
def digitsToNat (ds : List Char) : Nat :=
  ds.foldl (fun a c => a * 10 + (c.toNat - 48)) 0

/-- Decode the body of a json string literal (after the opening quote),
returning the decoded characters and the input after the closing quote.
The \uXXXX escape is outside the model. -/
def parseStringChars : Nat → List Char → Option (List Char × List Char)
  | 0, _ => Option.none
  | _ + 1, [] => Option.none
  | fuel + 1, c :: cs =>
    if c = '"' then some ([], cs)
    else if c = '\\' then
      match cs with
      | [] => Option.none
      | e :: cs2 =>
        let dec : Option Char :=
          if e = '"' then some '"'
          else if e = '\\' then some '\\'
          else if e = '/' then some '/'
          else if e = 'n' then some '\n'
          else if e = 't' then some '\t'
          else if e = 'r' then some '\r'
          else if e = 'b' then some (Char.ofNat 8)
          else if e = 'f' then some (Char.ofNat 12)
          else Option.none
        match dec with
        | some d => (parseStringChars fuel cs2).map (fun r => (d :: r.1, r.2))
        | Option.none => Option.none
    else (parseStringChars fuel cs).map (fun r => (c :: r.1, r.2))

mutual

/-- json value parser (model of json.loads), fuelled to make the recursion
structural; jsonLoads supplies fuel larger than the input length, which any
successful parse stays below because every recursive step consumes input. -/
def parseValue : Nat → List Char → Option (PyVal × List Char)
  | 0, _ => Option.none
  | fuel + 1, input =>
    match skipWs input with
    | [] => Option.none
    | c :: cs =>
      if c = '"' then
        (parseStringChars (fuel + 1) cs).map (fun r => (.str (String.mk r.1), r.2))
      else if c = '\x7b' then parseObj fuel (skipWs cs)
      else if c = '[' then parseArr fuel (skipWs cs)
      else if c = 't' then
        match cs with
        | 'r' :: 'u' :: 'e' :: rest => some (.bool true, rest)
        | _ => Option.none
      else if c = 'f' then
        match cs with
        | 'a' :: 'l' :: 's' :: 'e' :: rest => some (.bool false, rest)
        | _ => Option.none
      else if c = 'n' then
        match cs with
        | 'u' :: 'l' :: 'l' :: rest => some (.none, rest)
        | _ => Option.none
      else if c = '-' then
        match takeDigits cs with
        | ([], _) => Option.none
        | (ds, rest) => finishNumber (-(digitsToNat ds : Int)) rest
      else if c.isDigit then
        match takeDigits (c :: cs) with
        | (ds, rest) => finishNumber (digitsToNat ds : Int) rest
      else Option.none

/-- Reject the float forms (fraction or exponent follows the digits);
floats are outside the model. -/
def finishNumber (n : Int) (rest : List Char) : Option (PyVal × List Char) :=
  match rest with
  | c :: _ =>
    if c = '.' || c = 'e' || c = 'E' then Option.none else some (.int n, rest)
  | [] => some (.int n, [])

/-- After the opening brace (whitespace skipped): empty object or members. -/
def parseObj : Nat → List Char → Option (PyVal × List Char)
  | 0, _ => Option.none
  | fuel + 1, input =>
    match input with
    | '\x7d' :: rest => some (.dict [], rest)
    | _ => (parseMembers fuel input).map (fun r => (.dict r.1, r.2))

/-- Parse one or more key:value members then the closing brace. -/
def parseMembers : Nat → List Char → Option (PyDict × List Char)
  | 0, _ => Option.none
  | fuel + 1, input =>
    match skipWs input with
    | '"' :: cs =>
      match parseStringChars (fuel + 1) cs with
      | some (key, afterKey) =>
        match skipWs afterKey with
        | ':' :: afterColon =>
          match parseValue fuel afterColon with
          | some (v, afterV) =>
            match skipWs afterV with
            | ',' :: afterComma =>
              (parseMembers fuel afterComma).map
                (fun r => ((String.mk key, v) :: r.1, r.2))
            | '\x7d' :: rest => some ([(String.mk key, v)], rest)
            | _ => Option.none
          | Option.none => Option.none
        | _ => Option.none
      | Option.none => Option.none
    | _ => Option.none

/-- After the opening bracket (whitespace skipped): empty array or elements. -/
def parseArr : Nat → List Char → Option (PyVal × List Char)
  | 0, _ => Option.none
  | fuel + 1, input =>
    match input with
    | ']' :: rest => some (.list [], rest)
    | _ => (parseElements fuel input).map (fun r => (.list r.1, r.2))

/-- Parse one or more array elements then the closing bracket. -/
def parseElements : Nat → List Char → Option (List PyVal × List Char)
  | 0, _ => Option.none
  | fuel + 1, input =>
    match parseValue fuel input with
    | some (v, rest) =>
      match skipWs rest with
      | ',' :: afterComma =>
        (parseElements fuel afterComma).map (fun r => (v :: r.1, r.2))
      | ']' :: rest2 => some ([v], rest2)
      | _ => Option.none
    | Option.none => Option.none

end

/-- Collapse duplicate keys the way the Python dict constructor does while
preserving first-insertion order: later bindings overwrite earlier ones. -/
def dedupKeys : PyDict → PyDict
  | [] => []
  | (k, v) :: rest =>
    let rest' := dedupKeys rest
    match dictGet rest' k with
    | some v2 => (k, v2) :: (rest'.filter (fun kv => ¬ kv.1 = k))
    | Option.none => (k, v) :: rest'

mutual

/-- Apply the duplicate-key collapse everywhere in a parsed document. -/
def normalizeDoc : PyVal → PyVal
  | .dict kvs => .dict (dedupKeys (normalizeEntries kvs))
  | .list xs => .list (normalizeItems xs)
  | v => v

def normalizeItems : List PyVal → List PyVal
  | [] => []
  | x :: rest => normalizeDoc x :: normalizeItems rest

def normalizeEntries : PyDict → PyDict
  | [] => []
  | (k, v) :: rest => (k, normalizeDoc v) :: normalizeEntries rest

end

/-- json.loads: parse a complete document (only trailing whitespace may
remain); Option.none models json.JSONDecodeError. -/
def jsonLoads (s : String) : Option PyVal :=
  match parseValue (s.data.length + 2) s.data with
  | some (v, rest) => if skipWs rest = [] then some (normalizeDoc v) else Option.none
  | Option.none => Option.none

example : jsonLoads "\x7b\"total_results\": 7, \"items\": [\x7b\x7d, -3]\x7d"
    = some (.dict [("total_results", .int 7), ("items", .list [.dict [], .int (-3)])]) := by
  rfl

example : jsonLoads (jsonDumps (.dict [("a", .str "x y"), ("b", .list [.bool true, .none])]))
    = some (.dict [("a", .str "x y"), ("b", .list [.bool true, .none])]) := by rfl

example : jsonLoads "Error retrieving manifest: boom" = Option.none := by rfl

/-- Python truthiness for the embedded values. -/
def pyTruthy : PyVal → Bool
  | .none => false
  | .bool b => b
  | .int n => decide (n ≠ 0)
  | .str s => decide (s ≠ "")
  | .list xs => !xs.isEmpty
  | .dict kvs => !kvs.isEmpty

/-- Values usable as Python integers (bool is an int subtype). -/
def intOf : PyVal → Option Int
  | .int n => some n
  | .bool b => some (if b then 1 else 0)
  | _ => Option.none

/-- Python addition on the shapes the module can reach; anything else is a
TypeError (in particular int + None, the unset-limit slice bound). -/
def pyAdd : PyVal → PyVal → Except PyErr PyVal
  | .str a, .str b => .ok (.str (a ++ b))
  | .list a, .list b => .ok (.list (a ++ b))
  | a, b =>
    match intOf a, intOf b with
    | some x, some y => .ok (.int (x + y))
    | _, _ => .error .typeError

/-- Python subtraction: integers only. -/
def pySub : PyVal → PyVal → Except PyErr PyVal
  | a, b =>
    match intOf a, intOf b with
    | some x, some y => .ok (.int (x - y))
    | _, _ => .error .typeError

/-- Lexicographic character-list comparison (Python str <). -/
def charListLt : List Char → List Char → Bool
  | [], [] => false
  | [], _ :: _ => true
  | _ :: _, [] => false
  | a :: as, b :: bs => if a < b then true else if b < a then false else charListLt as bs

/-- Python comparison a < b for the shapes the module can reach. -/
def pyLt : PyVal → PyVal → Except PyErr Bool
  | .str a, .str b => .ok (charListLt a.data b.data)
  | a, b =>
    match intOf a, intOf b with
    | some x, some y => .ok (decide (x < y))
    | _, _ => .error .typeError

/-- Python min(a, b): b when b < a, else a. -/
def pyMin (a b : PyVal) : Except PyErr PyVal := do
  let c ← pyLt b a
  pure (if c then b else a)

/-- Python len() for the sized values. -/
def pyLen : PyVal → Except PyErr Nat
  | .str s => .ok s.data.length
  | .list xs => .ok xs.length
  | .dict kvs => .ok kvs.length
  | _ => .error .typeError

/-- Normalize one Python slice bound against a length (negative indices
count from the end, everything clamps into range). -/
def sliceNorm (len : Nat) (i : Int) : Nat :=
  if i < 0 then (len + i).toNat else min i.toNat len

/-- Python list slicing xs[a : b]. -/
def sliceList {α : Type} (xs : List α) (a b : Int) : List α :=
  let s := sliceNorm xs.length a
  let t := sliceNorm xs.length b
  (xs.drop s).take (t - s)

/-- Python v[a : b] for the sliceable values; non-integer bounds and
non-sliceable values raise TypeError. -/
def pySliceVal (v : PyVal) (aV bV : PyVal) : Except PyErr PyVal :=
  match intOf aV, intOf bV with
  | some a, some b =>
    match v with
    | .list xs => .ok (.list (sliceList xs a b))
    | .str s => .ok (.str (String.mk (sliceList s.data a b)))
    | _ => .error .typeError
  | _, _ => .error .typeError

/-- Python iteration (for x in v): list elements, characters of a str as
one-character strings, keys of a dict; the rest is not iterable. -/
def pyIterate : PyVal → Except PyErr (List PyVal)
  | .list xs => .ok xs
  | .str s => .ok (s.data.map (fun c => .str (String.mk [c])))
  | .dict kvs => .ok (kvs.map (fun kv => .str kv.1))
  | _ => .error .typeError

/-- v.get(key, default): AttributeError on anything that is not a dict. -/
def pyGetD (v : PyVal) (key : String) (default : PyVal) : Except PyErr PyVal :=
  match v with
  | .dict d => .ok ((dictGet d key).getD default)
  | _ => .error .attributeError

/-- v[0] on the subscriptable values (a dict looks the integer key up and
fails, since modelled dict keys are strings). -/
def pyIndexFirst : PyVal → Except PyErr PyVal
  | .list [] => .error .indexError
  | .list (x :: _) => .ok x
  | .str s =>
    match s.data with
    | [] => .error .indexError
    | c :: _ => .ok (.str (String.mk [c]))
  | .dict _ => .error .keyError
  | _ => .error .typeError

/-- Python membership test needle in container for a string needle:
substring of a str, element of a list, key of a dict; int/bool/None are not
iterable (TypeError). -/
def pyInOp (needle : String) : PyVal → Except PyErr Bool
  | .str s => .ok (strContains s needle)
  | .list xs =>
    .ok (xs.any fun v =>
      match v with
      | .str s => decide (s = needle)
      | _ => false)
  | .dict kvs => .ok (kvs.any fun kv => kv.1 = needle)
  | _ => .error .typeError

/-- value.replace with the apostrophe replaced by a double quote, the one
replace call the source makes (both arguments are single characters). -/
def aposToQuote (s : String) : String :=
  String.mk (s.data.map fun c => if c = aposChar then '"' else c)

/-- Source extract_value_from_json (lines 646-656).  The function is only
ever applied to str(...) results, so the argument is a string; on that
domain the isinstance(value, list) branch is dead and the final line
returns value.strip() because the condition (not None) is constantly true.
json.loads failure (and a parse that is not a dict carrying @value) falls
through to the literal path. -/
def extract_value_from_json (value : String) : String :=
  match jsonLoads (aposToQuote value) with
  | some (.dict d) =>
    match dictGet d "@value" with
    | some v => pyStrip (pyStr v)
    | Option.none => pyStrip value
  | _ => pyStrip value

/-- Source get_simple_field (lines 658-668): the Field Normalizer.  The
error side records the exceptions the Python code raises: value[0] on an
empty list (IndexError), the membership test on a first element that is
not a container (TypeError), and .get on a non-dict record
(AttributeError). -/
def get_simple_field (item : PyVal) (key_name : String) : Except PyErr (Option String) :=
  match item with
  | .dict d =>
    let value := (dictGet d key_name).getD .none
    match value with
    | .str s =>
      if strContains s "@value" then .ok (some (extract_value_from_json s))
      else .ok (some (pyStrip s))
    | .list [] => .error .indexError
    | .list (x :: xs) =>
      match pyInOp "@value" x with
      | .error e => .error e
      | .ok true => .ok (some (extract_value_from_json (pyStr x)))
      | .ok false => .ok (some (pyStrip (pyStr (.list (x :: xs)))))
    | .none => .ok Option.none
    | v => .ok (some (pyStrip (pyStr v)))
  | _ => .error .attributeError

/-- The entries of items_images: {recordId, title, thumbnailUrl}. -/
structure ImageRecord where
  recordId : Option String
  title : Option String
  thumbnailUrl : String

/-- The values interpolated into the main response_instructions f-string of
handle_generate_response (lines 599-624): exact totals, the display range,
the has-more flag and offset, the raw envelope and the image list. -/
structure MainPayload where
  total_results : PyVal
  results_start : PyVal
  results_end : PyVal
  current_batch_size : Nat
  has_more : Bool
  next_offset : Option PyVal
  search_data : PyVal
  items_images : List ImageRecord
  user_query : PyVal

/-- One TextContent payload.  Texts that no claim introspects stay plain
strings; the f-string templates whose interpolated slots the claims are
about are modelled as constructors carrying exactly those slots. -/
inductive TextContent where
  | plain (text : String)
  | composedMain (p : MainPayload)
  | continuation (more : PyVal) (current_limit : PyVal) (next_offset : PyVal)
  | batchPrompt (batch_start batch_end : Int) (len_items : Int) (total_results : PyVal)
      (context_items : PyVal) (items_images : PyVal) (user_query : String)
      (next_offset : Int) (remaining : Int)
  | batchComplete (len_items : Int) (total_results : PyVal) (user_query : String)
  | processQuery (user_query : PyVal)

/-- The .text field.  The only payload the module ever re-parses is the
output of handle_search_nli, which is always plain. -/
def textOf : TextContent → String
  | .plain s => s
  | _ => ""

/-- Search Proxy response handling, the body of the try block of
handle_search_nli (lines 457-480): decode, normalize the legacy bare-list
and the enveloped shapes, apply the client-side slice, dump.  Exceptions
carry the message the catch-all will interpolate.  The outgoing request
construction (lines 415-455) only shapes the backend request, which no
claim references; it lives inside the fetch oracle. -/
def searchTryBody (fetch : Except String PyVal) (offset limit : PyVal) :
    Except String TextContent := do
  let data ← fetch
  match data with
  | .list xs =>
    let total : PyVal := .int (xs.length : Int)
    let bound ← (pyAdd offset limit).mapError pyErrMsg
    let sliced ← (pySliceVal (.list xs) offset bound).mapError pyErrMsg
    pure (.plain (jsonDumps (.dict [("total_results", total), ("items", sliced)])))
  | .dict d =>
    let total := (dictGet d "total_results").getD (.int 0)
    let items := (dictGet d "items").getD (.list [])
    let bound ← (pyAdd offset limit).mapError pyErrMsg
    let sliced ← (pySliceVal items offset bound).mapError pyErrMsg
    pure (.plain (jsonDumps (.dict [("total_results", total), ("items", sliced)])))
  | _ => .error (pyErrMsg .attributeError)

/-- Source handle_search_nli (lines 385-480).  Reading q out of the
argument mapping happens before the try block, so a missing q raises
KeyError to the caller; everything inside the try is converted to an error
text by the catch-all. -/
def handle_search_nli (fetch : Except String PyVal) (arguments : PyDict) :
    Except PyErr (List TextContent) :=
  match dictGet arguments "q" with
  | Option.none => .error .keyError
  | some _q =>
    let offset := (dictGet arguments "offset").getD (.int 0)
    let limit := (dictGet arguments "limit").getD .none
    .ok (match searchTryBody fetch offset limit with
      | .ok t => [t]
      | .error e => [.plain ("Error searching NLI: " ++ e)])

def BASE_IIIF_IMAGE : String := "https://iiif.nli.org.il/IIIFv21"

/-- BASE_IIIF_MANIFEST with the recordId interpolated. -/
def manifestUrl (recordId : PyVal) : String :=
  BASE_IIIF_IMAGE ++ "/" ++ pyStr recordId ++ "/manifest"

/-- Source handle_get_manifest (lines 767-782).  Reading recordId happens
before the try block (KeyError when absent); the try wraps the fetch, the
raise_for_status and the json decode, all modelled by the oracle, and the
catch-all turns any failure into the error text. -/
def handle_get_manifest (fetch : String → Except String PyVal) (arguments : PyDict) :
    Except PyErr (List TextContent) :=
  match dictGet arguments "recordId" with
  | Option.none => .error .keyError
  | some rid =>
    .ok (match fetch (manifestUrl rid) with
      | .ok data => [.plain (jsonDumps data)]
      | .error e => [.plain ("Error retrieving manifest: " ++ e)])

def URI_RECORDID : String := "http://purl.org/dc/elements/1.1/recordid"

def URI_TITLE : String := "http://purl.org/dc/elements/1.1/title"

def URI_THUMBNAIL : String := "http://purl.org/dc/elements/1.1/thumbnail"

/-- img.get("resource", \x7b\x7d).get("@id", "") followed by .lower():
the identifier must come out a str or the .lower() call raises. -/
def imgResourceId (img : PyVal) : Except PyErr String :=
  match pyGetD img "resource" (.dict []) with
  | .error e => .error e
  | .ok res =>
    match pyGetD res "@id" (.str "") with
    | .error e => .error e
    | .ok idv =>
      match idv with
      | .str s => .ok s
      | _ => .error .attributeError

/-- The filter of the selection generator: identifier ends in .jpg or .png
case-insensitively and does not contain logo case-insensitively. -/
def qualifiesImageId (s : String) : Bool :=
  (strEndsWith (strLower s) ".jpg" || strEndsWith (strLower s) ".png")
    && !(strContains (strLower s) "logo")

/-- Inner loop of the selection generator: first qualifying identifier of
one canvas image list. -/
def scanImages : List PyVal → Except PyErr (Option String)
  | [] => .ok Option.none
  | img :: rest =>
    match imgResourceId img with
    | .error e => .error e
    | .ok s => if qualifiesImageId s then .ok (some s) else scanImages rest

/-- Outer loop of the selection generator: canvases in document order. -/
def scanCanvases : List PyVal → Except PyErr (Option String)
  | [] => .ok Option.none
  | canvas :: rest =>
    match pyGetD canvas "images" (.list []) with
    | .error e => .error e
    | .ok imgsV =>
      match pyIterate imgsV with
      | .error e => .error e
      | .ok imgs =>
        match scanImages imgs with
        | .error e => .error e
        | .ok (some s) => .ok (some s)
        | .ok Option.none => scanCanvases rest

/-- Manifest image selection (lines 572-584): only the first sequence is
inspected, and only when sequences is truthy; the generator scans its
canvases in order for the first qualifying image resource identifier. -/
def select_image_url (manifest_data : PyVal) : Except PyErr (Option String) :=
  match pyGetD manifest_data "sequences" (.list []) with
  | .error e => .error e
  | .ok sequences =>
    if pyTruthy sequences then
      match pyIndexFirst sequences with
      | .error e => .error e
      | .ok seq0 =>
        match pyGetD seq0 "canvases" (.list []) with
        | .error e => .error e
        | .ok canvasesV =>
          match pyIterate canvasesV with
          | .error e => .error e
          | .ok canvases => scanCanvases canvases
    else .ok Option.none

/-- Per-record body of the fallback loop (lines 570-592): parse the fetched
text, select an identifier, keep it only if truthy.  Every exception inside
the body is caught by the per-record except clause, which drops the record;
so is a failed json parse of an error text. -/
def processManifestText (texts : List TextContent) : Option String :=
  match texts with
  | [] => Option.none
  | t :: _ =>
    match jsonLoads (textOf t) with
    | Option.none => Option.none
    | some manifest_data =>
      match select_image_url manifest_data with
      | .error _ => Option.none
      | .ok Option.none => Option.none
      | .ok (some s) => if s = "" then Option.none else some s

/-- First phase of the engine (lines 545-561): normalize the three fields
of each record, emit direct-thumbnail ImageRecords, queue the rest for the
manifest fallback.  A field normalizer exception aborts the whole loop (it
is caught only by the outer catch-all of handle_generate_response). -/
def classifyRecords : List PyVal →
    Except PyErr (List ImageRecord × List (String × Option String))
  | [] => .ok ([], [])
  | item :: rest =>
    match get_simple_field item URI_RECORDID with
    | .error e => .error e
    | .ok record_id =>
      match get_simple_field item URI_TITLE with
      | .error e => .error e
      | .ok title =>
        match get_simple_field item URI_THUMBNAIL with
        | .error e => .error e
        | .ok thumbnail =>
          let thumbTruthy :=
            match thumbnail with
            | some s => decide (s ≠ "")
            | Option.none => false
          let prefixOk :=
            match thumbnail with
            | some s => strStartsWith s "http://" || strStartsWith s "https://"
            | Option.none => false
          match classifyRecords rest with
          | .error e => .error e
          | .ok r =>
            match record_id, (!thumbTruthy || (thumbTruthy && !prefixOk)) with
            | some rid, true => .ok (r.1, (rid, title) :: r.2)
            | _, _ =>
              if thumbTruthy && prefixOk then
                .ok ({ recordId := record_id, title := title,
                       thumbnailUrl := thumbnail.getD "" } :: r.1, r.2)
              else .ok (r.1, r.2)

/-- Second phase (lines 563-592): one manifest fetch per queued record; the
gathered results are consumed positionally.  A coroutine that raised is
collected as an Exception instance and skipped; otherwise the per-record
body runs. -/
def fanOutManifests (mfetch : String → Except String PyVal) :
    List (String × Option String) → List ImageRecord
  | [] => []
  | (rid, title) :: rest =>
    let here : List ImageRecord :=
      match handle_get_manifest mfetch [("recordId", .str rid)] with
      | .error _ => []
      | .ok texts =>
        match processManifestText texts with
        | some url => [{ recordId := some rid, title := title, thumbnailUrl := url }]
        | Option.none => []
    here ++ fanOutManifests mfetch rest

/-- The Image Resolution Engine: the inline body of handle_generate_response
over the items of the current page (lines 540-592).  Direct-thumbnail
records come first, manifest fallbacks are appended in queue order. -/
def resolveImages (mfetch : String → Except String PyVal) (current_items : PyVal) :
    Except PyErr (List ImageRecord) :=
  match pyIterate current_items with
  | .error e => .error e
  | .ok items =>
    match classifyRecords items with
    | .error e => .error e
    | .ok r => .ok (r.1 ++ fanOutManifests mfetch r.2)

/-- The try block of handle_generate_response (lines 517-640): forward the
arguments minus user_query/limit (and minus None values) with the page size
pinned to 3, parse the search text, compute the display range from the
offset and limit the parsed envelope carries (it never carries either, so
the defaults 0 and 3 apply), resolve images, and render the main payload
plus, when more results exist, the continuation payload.  Error values are
the str(e) texts the catch-all interpolates. -/
def generateTryBody (sfetch : Except String PyVal) (mfetch : String → Except String PyVal)
    (arguments : PyDict) (user_query : PyVal) : Except String (List TextContent) := do
  let search_params : PyDict :=
    (arguments.filter fun kv =>
      !(kv.1 = "user_query") && !(kv.1 = "limit")
        && (match kv.2 with
            | .none => false
            | _ => true))
      ++ [("limit", .int 3)]
  let search_result ← (handle_search_nli sfetch search_params).mapError pyErrMsg
  match search_result with
  | [] => .error (pyErrMsg .indexError)
  | t :: _ =>
    match jsonLoads (textOf t) with
    | Option.none => .ok [.plain "Failed to parse search results: JSONDecodeError"]
    | some search_data => do
      let total_results ← (pyGetD search_data "total_results" (.int 0)).mapError pyErrMsg
      let current_items ← (pyGetD search_data "items" (.list [])).mapError pyErrMsg
      let current_offset ← (pyGetD search_data "offset" (.int 0)).mapError pyErrMsg
      let current_limit ← (pyGetD search_data "limit" (.int 3)).mapError pyErrMsg
      let results_start ← (pyAdd current_offset (.int 1)).mapError pyErrMsg
      let sub1 ← (pySub total_results current_offset).mapError pyErrMsg
      let add3 ← (pyAdd current_offset (.int 3)).mapError pyErrMsg
      let results_end ← (pyMin sub1 add3).mapError pyErrMsg
      let items_images ← (resolveImages mfetch current_items).mapError pyErrMsg
      let has_more ← (pyLt results_end total_results).mapError pyErrMsg
      let next_offset : Option PyVal ←
        if has_more then do
          let v ← (pyAdd current_offset current_limit).mapError pyErrMsg
          pure (some v)
        else pure Option.none
      let batchSize ← (pyLen current_items).mapError pyErrMsg
      let main := TextContent.composedMain
        { total_results := total_results
          results_start := results_start
          results_end := results_end
          current_batch_size := batchSize
          has_more := has_more
          next_offset := next_offset
          search_data := search_data
          items_images := items_images
          user_query := user_query }
      match next_offset with
      | some nxt => do
        let more ← (pySub total_results results_end).mapError pyErrMsg
        .ok [main, .continuation more current_limit nxt]
      | Option.none => .ok [main]

/-- Source handle_generate_response (lines 503-643): the Response Composer.
The two argument validations return texts before the try block; everything
raised inside the try becomes the catch-all error text, so the handler
itself never raises. -/
def handle_generate_response (sfetch : Except String PyVal)
    (mfetch : String → Except String PyVal) (arguments : PyDict) : List TextContent :=
  if arguments.isEmpty then [.plain "No arguments provided"]
  else
    let user_query := (dictGet arguments "user_query").getD .none
    if !pyTruthy user_query then [.plain "Missing user_query parameter"]
    else
      match generateTryBody sfetch mfetch arguments user_query with
      | .ok r => r
      | .error e => [.plain ("Error processing query: " ++ e)]

/-- Recursion of stream_batches (lines 681-743), fuelled so it is
structural: one prompt per frame, then the terminal completion report when
the cursor passes the item count.  The source re-reads items and
total_results from the unchanged search_data on every frame, so they are
hoisted to parameters.  The wrapper passes fuel exceeding the frame count
reached with batch_size ≥ 1 (stream_batches_fuel_sufficient below); a
batch_size ≤ 0 never reaches the terminal state in Python and dies at the
interpreter recursion limit, modelled as RecursionError. -/
def stream_batches_go (user_query : String) (itemsVal : PyVal) (n : Int)
    (total_results : PyVal) (items_images : PyVal) (batch_size : Int) :
    Nat → Int → Except PyErr (List TextContent)
  | 0, _ => .error .recursionError
  | fuel + 1, offset =>
    if offset ≥ n then .ok [.batchComplete n total_results user_query]
    else if batch_size ≤ 0 then .error .recursionError
    else
      let bound := offset + batch_size
      let batch_start := offset + 1
      let batch_end := min bound n
      let remaining := max 0 (n - batch_end)
      match pySliceVal itemsVal (.int offset) (.int bound) with
      | .error e => .error e
      | .ok slice =>
        match stream_batches_go user_query itemsVal n total_results items_images
          batch_size fuel bound with
        | .error e => .error e
        | .ok rest =>
          .ok (.batchPrompt batch_start batch_end n total_results slice items_images
            user_query bound remaining :: rest)

/-- Source stream_batches (lines 670-743): the Batch Streamer, called with
its five real parameters. -/
def stream_batches (user_query : String) (search_data : PyVal) (items_images : PyVal)
    (offset batch_size : Int) : Except PyErr (List TextContent) :=
  match pyGetD search_data "items" (.list []) with
  | .error e => .error e
  | .ok itemsVal =>
    match pyLen itemsVal with
    | .error e => .error e
    | .ok nNat =>
      match pyGetD search_data "total_results" (.int 0) with
      | .error e => .error e
      | .ok total_results =>
        stream_batches_go user_query itemsVal (nNat : Int) total_results items_images
          batch_size (((nNat : Int) - offset).toNat + 1) offset

/-- Source handle_process_natural_query (lines 482-501): renders the fixed
instruction template around the raw user_query argument. -/
def handle_process_natural_query (arguments : PyDict) : List TextContent :=
  [.processQuery ((dictGet arguments "user_query").getD .none)]

/-- Source handle_get_image (lines 745-765).  identifier is read before the
try block (KeyError when absent); the try wraps only the fetch. -/
def handle_get_image (fetch : String → Except String Unit) (arguments : PyDict) :
    Except PyErr (List TextContent) :=
  match dictGet arguments "identifier" with
  | Option.none => .error .keyError
  | some identifier =>
    let region := (dictGet arguments "region").getD (.str "full")
    let size := (dictGet arguments "size").getD (.str "max")
    let rotation := ((dictGet arguments "rotation").map pyStr).getD "0.0"
    let quality := (dictGet arguments "quality").getD (.str "default")
    let fmt := (dictGet arguments "format").getD (.str "jpg")
    let url := BASE_IIIF_IMAGE ++ "/" ++ pyStr identifier ++ "/" ++ pyStr region
      ++ "/" ++ pyStr size ++ "/" ++ rotation ++ "/" ++ pyStr quality ++ "." ++ pyStr fmt
    .ok (match fetch url with
      | .ok _ => [.plain ("Image retrieved successfully from: " ++ url)]
      | .error e => [.plain ("Error retrieving image: " ++ e)])

/-- PyVal equality against a string literal (the fmt in (...) tests). -/
def pyEqStr (v : PyVal) (s : String) : Bool :=
  match v with
  | .str t => t = s
  | _ => false

/-- The try block of handle_get_stream (lines 792-814): look the item up,
then conditionally probe the three stream fields, short-circuiting the way
the Python and does (the .get runs only when the fmt test passes). -/
def streamTryBody (fetch : Except String PyVal) (fmt : PyVal) : Except String TextContent := do
  let data ← fetch
  let items ← (pyGetD data "items" (.list [])).mapError pyErrMsg
  if !pyTruthy items then .ok (.plain "Item not found")
  else do
    let doc ← (pyIndexFirst items).mapError pyErrMsg
    let step (cond : Bool) (key outKey : String) (acc : PyDict) : Except String PyDict :=
      if cond then do
        let v ← (pyGetD doc key .none).mapError pyErrMsg
        pure (if pyTruthy v then acc ++ [(outKey, v)] else acc)
      else pure acc
    let st1 ← step (pyEqStr fmt "mp4" || pyEqStr fmt "all") "stream_url_mp4" "mp4" []
    let st2 ← step (pyEqStr fmt "hls" || pyEqStr fmt "all") "stream_url_hls" "hls" st1
    let st3 ← step (pyEqStr fmt "audio" || pyEqStr fmt "all") "audio_url" "audio" st2
    .ok (.plain (jsonDumps (.dict st3)))

/-- Source handle_get_stream (lines 784-814). -/
def handle_get_stream (fetch : Except String PyVal) (arguments : PyDict) :
    Except PyErr (List TextContent) :=
  match dictGet arguments "itemId" with
  | Option.none => .error .keyError
  | some _itemId =>
    let fmt := (dictGet arguments "format").getD (.str "all")
    .ok (match streamTryBody fetch fmt with
      | .ok t => [t]
      | .error e => [.plain ("Error retrieving streams: " ++ e)])

/-- The network collaborators of one tool invocation. -/
structure Oracles where
  searchFetch : Except String PyVal
  manifestFetch : String → Except String PyVal
  imageFetch : String → Except String Unit
  streamFetch : Except String PyVal

/-- Source handle_call_tool (lines 366-383): the tool dispatch layer.  The
stream_batches branch calls stream_batches(arguments) — one positional
argument for a function with five required positional parameters — so the
call expression itself raises TypeError inside the dispatcher; the unknown
name branch raises ValueError. -/
def handle_call_tool (o : Oracles) (name : String) (arguments : PyDict) :
    Except PyErr (List TextContent) :=
  if name = "process_natural_query" then .ok (handle_process_natural_query arguments)
  else if name = "generate_response" then
    .ok (handle_generate_response o.searchFetch o.manifestFetch arguments)
  else if name = "stream_batches" then .error .typeError
  else if name = "get_image" then handle_get_image o.imageFetch arguments
  else if name = "get_manifest" then handle_get_manifest o.manifestFetch arguments
  else if name = "get_stream" then handle_get_stream o.streamFetch arguments
  else .error .valueError

/-- Adding None on the right is a TypeError whatever the left operand is:
the unset-limit slice bound. -/
theorem pyAdd_rightNone (x : PyVal) : pyAdd x PyVal.none = .error .typeError := by
  cases x <;> rfl

/-- With limit = None the response handling of the Search Proxy always
raises (int + NoneType in the slice bound, or the .get AttributeError on a
scalar response), so the try body errors for every backend response. -/
theorem searchTryBody_limit_none (data : PyVal) (offset : PyVal) :
    ∃ msg, searchTryBody (.ok data) offset PyVal.none = .error msg := by
  cases data with
  | list xs =>
    exact ⟨pyErrMsg .typeError, by simp only [searchTryBody, pyAdd_rightNone]; rfl⟩
  | dict d =>
    exact ⟨pyErrMsg .typeError, by simp only [searchTryBody, pyAdd_rightNone]; rfl⟩
  | none => exact ⟨pyErrMsg .attributeError, rfl⟩
  | bool b => exact ⟨pyErrMsg .attributeError, rfl⟩
  | int n => exact ⟨pyErrMsg .attributeError, rfl⟩
  | str s => exact ⟨pyErrMsg .attributeError, rfl⟩

/-- The json parser rejects any input whose first character is E, whatever
follows: the head of every manifest error text. -/
theorem parseValue_headE (fuel : Nat) (cs : List Char) :
    parseValue fuel ('E' :: cs) = Option.none := by
  cases fuel with
  | zero => rfl
  | succ n => simp [parseValue, skipWs, isWsChar]

/-- json.loads fails on every manifest error text. -/
theorem jsonLoads_manifest_error (e : String) :
    jsonLoads ("Error retrieving manifest: " ++ e) = Option.none := by
  have h : ("Error retrieving manifest: " ++ e).data
      = 'E' :: ("rror retrieving manifest: ".data ++ e.data) := by
    rw [String.data_append]; rfl
  unfold jsonLoads
  rw [h, parseValue_headE]

/-- The values on which the Field Normalizer completes without raising: a
list raw value must be non-empty and its first element must support the
membership test (str, list or dict). -/
def normalizerDefined : PyVal → Bool
  | .list [] => false
  | .list (x :: _) =>
    match x with
    | .str _ => true
    | .list _ => true
    | .dict _ => true
    | _ => false
  | _ => true

/-- C2: dispatching the stream_batches tool raises TypeError for every
argument mapping and every collaborator behaviour — the dispatcher calls
the five-parameter coroutine with a single positional argument — so the
invocation never returns text payloads; the claim that all exposed
operations return text payloads (with bad arguments reported as text) is
contradicted by the code. -/
theorem C2_stream_batches_dispatch_raises (o : Oracles) (args : PyDict) :
    handle_call_tool o "stream_batches" args = .error .typeError := by
  rfl

/-- C4 counterexample: the Field Normalizer is not total and does not send
every empty value to null — an empty-list raw value raises IndexError, and
an empty-string raw value comes back as the empty string, not null. -/
theorem C4_counterexample :
    get_simple_field (.dict [("k", .list [])]) "k" = .error .indexError
      ∧ get_simple_field (.dict [("k", .str "")]) "k" = .ok (some "") := by
  exact ⟨rfl, rfl⟩

/-- C4 (amended): the Field Normalizer returns a string or null and never
raises provided a list raw value is non-empty with a first element that is
a str, list or dict; an absent raw value returns null.  (As the
counterexample shows, an empty list raises and an empty string is returned
as such, so the original totality and empty-to-null clauses are cut down
to this guarded form.) -/
theorem C4_amended (d : PyDict) (key : String) :
    (normalizerDefined ((dictGet d key).getD PyVal.none) = true →
      ∃ r, get_simple_field (.dict d) key = .ok r)
    ∧ (dictGet d key = Option.none → get_simple_field (.dict d) key = .ok Option.none) := by
  constructor
  · intro hdef
    simp only [get_simple_field]
    cases hv : (dictGet d key).getD PyVal.none with
    | str s =>
      cases hc : strContains s "@value" with
      | true => exact ⟨some (extract_value_from_json s), by simp [hc]⟩
      | false => exact ⟨some (pyStrip s), by simp [hc]⟩
    | list xs =>
      rw [hv] at hdef
      cases xs with
      | nil => simp [normalizerDefined] at hdef
      | cons x rest =>
        cases x with
        | str s =>
          cases hm : pyInOp "@value" (PyVal.str s) with
          | ok b =>
            cases b with
            | true =>
              exact ⟨some (extract_value_from_json (pyStr (PyVal.str s))), by simp [hm]⟩
            | false =>
              exact ⟨some (pyStrip (pyStr (PyVal.list (PyVal.str s :: rest)))), by simp [hm]⟩
          | error e => simp [pyInOp] at hm
        | list ys =>
          cases hm : pyInOp "@value" (PyVal.list ys) with
          | ok b =>
            cases b with
            | true =>
              exact ⟨some (extract_value_from_json (pyStr (PyVal.list ys))), by simp [hm]⟩
            | false =>
              exact ⟨some (pyStrip (pyStr (PyVal.list (PyVal.list ys :: rest)))), by simp [hm]⟩
          | error e => simp [pyInOp] at hm
        | dict kvs =>
          cases hm : pyInOp "@value" (PyVal.dict kvs) with
          | ok b =>
            cases b with
            | true =>
              exact ⟨some (extract_value_from_json (pyStr (PyVal.dict kvs))), by simp [hm]⟩
            | false =>
              exact ⟨some (pyStrip (pyStr (PyVal.list (PyVal.dict kvs :: rest)))), by simp [hm]⟩
          | error e => simp [pyInOp] at hm
        | none => simp [normalizerDefined] at hdef
        | bool b => simp [normalizerDefined] at hdef
        | int n => simp [normalizerDefined] at hdef
    | none => exact ⟨Option.none, rfl⟩
    | bool b => exact ⟨some (pyStrip (pyStr (.bool b))), rfl⟩
    | int n => exact ⟨some (pyStrip (pyStr (.int n))), rfl⟩
    | dict kvs => exact ⟨some (pyStrip (pyStr (.dict kvs))), rfl⟩
  · intro habs
    simp [get_simple_field, habs]

/-- C4 witness: the amended normalizer statement applied at a concrete
record carrying a value-object encoded field. -/
theorem C4_witness :
    ∃ r, get_simple_field (.dict [("k", .str "a b")]) "k" = .ok r := by
  exact (C4_amended [("k", .str "a b")] "k").1 (by rfl)

/-- C5 counterexample: with limit unset the Search Proxy does not return
the full backend list — the slice bound offset + None raises TypeError and
the catch-all turns the call into an error text. -/
theorem C5_counterexample :
    handle_search_nli (.ok (.list [.str "a", .str "b", .str "c", .str "d", .str "e"]))
        [("q", .str "x"), ("offset", .int 2)]
      = .ok [.plain ("Error searching NLI: " ++ pyErrMsg .typeError)]
    ∧ ("Error searching NLI: " ++ pyErrMsg .typeError)
      ≠ jsonDumps (.dict [("total_results", .int 5),
          ("items", .list [.str "a", .str "b", .str "c", .str "d", .str "e"])]) := by
  exact ⟨rfl, by decide⟩

/-- C5 (amended): when the limit argument is absent or None, the Search
Proxy returns an error text (Error searching NLI: ...) for every backend
response — the unset bound makes the client-side slice raise rather than
silently skipping the slice or returning the full page. -/
theorem C5_amended (data : PyVal) (args : PyDict) (q : PyVal)
    (hq : dictGet args "q" = some q)
    (hlimit : dictGet args "limit" = Option.none ∨ dictGet args "limit" = some PyVal.none) :
    ∃ msg, handle_search_nli (.ok data) args = .ok [.plain ("Error searching NLI: " ++ msg)] := by
  have hl : (dictGet args "limit").getD PyVal.none = PyVal.none := by
    rcases hlimit with h | h <;> rw [h] <;> rfl
  obtain ⟨msg, hm⟩ := searchTryBody_limit_none data ((dictGet args "offset").getD (.int 0))
  refine ⟨msg, ?_⟩
  simp only [handle_search_nli, hq, hl, hm]

/-- C5 witness: the amended statement applied at the five-item bare-list
response with offset 2 and the limit key absent. -/
theorem C5_witness :
    ∃ msg, handle_search_nli (.ok (.list [.str "a", .str "b", .str "c", .str "d", .str "e"]))
        [("q", .str "x"), ("offset", .int 2)]
      = .ok [.plain ("Error searching NLI: " ++ msg)] := by
  exact C5_amended _ _ (.str "x") rfl (Or.inl rfl)

/-- C9: on a legacy bare-list backend response of five items with offset 2
and limit 2 the Search Proxy envelope carries total_results = 5 and exactly
the elements at indices 2 and 3, in order. -/
theorem C9_bare_list_slice (q : String) (a b c d e : PyVal) :
    handle_search_nli (.ok (.list [a, b, c, d, e]))
        [("q", .str q), ("offset", .int 2), ("limit", .int 2)]
      = .ok [.plain (jsonDumps (.dict [("total_results", .int 5), ("items", .list [c, d])]))] := by
  rfl

/-- A qualifying identifier is never empty: it ends in a four-character
extension. -/
theorem qualifies_ne_empty (s : String) (h : qualifiesImageId s = true) : s ≠ "" := by
  intro he
  subst he
  rw [show qualifiesImageId "" = false from rfl] at h
  exact Bool.noConfusion h

/-- Whatever the generator selects from one canvas passed the filter. -/
theorem scanImages_sound (imgs : List PyVal) (s : String) :
    scanImages imgs = .ok (some s) → qualifiesImageId s = true := by
  induction imgs with
  | nil => intro h; simp [scanImages] at h
  | cons img rest ih =>
    intro h
    simp only [scanImages] at h
    cases hid : imgResourceId img with
    | error e => simp [hid] at h
    | ok t =>
      simp only [hid] at h
      by_cases hq : qualifiesImageId t = true
      · rw [if_pos hq] at h
        cases h
        exact hq
      · rw [if_neg hq] at h
        exact ih h

/-- Whatever the generator selects across the canvases passed the filter. -/
theorem scanCanvases_sound (cs : List PyVal) (s : String) :
    scanCanvases cs = .ok (some s) → qualifiesImageId s = true := by
  induction cs with
  | nil => intro h; simp [scanCanvases] at h
  | cons canvas rest ih =>
    intro h
    simp only [scanCanvases] at h
    cases h1 : pyGetD canvas "images" (.list []) with
    | error e => simp [h1] at h
    | ok imgsV =>
      simp only [h1] at h
      cases h2 : pyIterate imgsV with
      | error e => simp [h2] at h
      | ok imgs =>
        simp only [h2] at h
        cases h3 : scanImages imgs with
        | error e => simp [h3] at h
        | ok o =>
          cases o with
          | some t =>
            simp only [h3] at h
            cases h
            exact scanImages_sound imgs s h3
          | none =>
            simp only [h3] at h
            exact ih h

/-- Whatever select_image_url returns passed the filter. -/
theorem select_image_url_sound (md : PyVal) (s : String) :
    select_image_url md = .ok (some s) → qualifiesImageId s = true := by
  intro h
  simp only [select_image_url] at h
  cases h1 : pyGetD md "sequences" (.list []) with
  | error e => simp [h1] at h
  | ok sequences =>
    simp only [h1] at h
    by_cases ht : pyTruthy sequences = true
    · rw [if_pos ht] at h
      cases h2 : pyIndexFirst sequences with
      | error e => simp [h2] at h
      | ok seq0 =>
        simp only [h2] at h
        cases h3 : pyGetD seq0 "canvases" (.list []) with
        | error e => simp [h3] at h
        | ok canvasesV =>
          simp only [h3] at h
          cases h4 : pyIterate canvasesV with
          | error e => simp [h4] at h
          | ok canvases =>
            simp only [h4] at h
            exact scanCanvases_sound canvases s h
    · rw [if_neg ht] at h
      cases h

/-- Whatever one fallback record contributes passed the filter and is
non-empty. -/
theorem processManifestText_sound (texts : List TextContent) (s : String) :
    processManifestText texts = some s → s ≠ "" ∧ qualifiesImageId s = true := by
  intro h
  cases texts with
  | nil => simp [processManifestText] at h
  | cons t rest =>
    simp only [processManifestText] at h
    cases hl : jsonLoads (textOf t) with
    | none => simp [hl] at h
    | some md =>
      simp only [hl] at h
      cases hs : select_image_url md with
      | error e => simp [hs] at h
      | ok o =>
        cases o with
        | none => simp [hs] at h
        | some u =>
          simp only [hs] at h
          by_cases hu : u = ""
          · rw [if_pos hu] at h; cases h
          · rw [if_neg hu] at h
            cases h
            exact ⟨hu, select_image_url_sound md s hs⟩

/-- Every ImageRecord the fallback fan-out emits carries a non-empty
identifier that passed the filter. -/
theorem fanOutManifests_sound (mfetch : String → Except String PyVal)
    (queue : List (String × Option String)) (r : ImageRecord) :
    r ∈ fanOutManifests mfetch queue →
    r.thumbnailUrl ≠ "" ∧ qualifiesImageId r.thumbnailUrl = true := by
  induction queue with
  | nil => intro h; simp [fanOutManifests] at h
  | cons q rest ih =>
    intro h
    obtain ⟨rid, title⟩ := q
    simp only [fanOutManifests] at h
    rw [List.mem_append] at h
    cases h with
    | inr hr => exact ih hr
    | inl hl =>
      cases hm : handle_get_manifest mfetch [("recordId", .str rid)] with
      | error e => rw [hm] at hl; simp at hl
      | ok texts =>
        simp only [hm] at hl
        cases hp : processManifestText texts with
        | none => simp [hp] at hl
        | some url =>
          simp only [hp] at hl
          simp only [List.mem_singleton] at hl
          subst hl
          exact processManifestText_sound texts url hp

/-- Every direct-tier ImageRecord carries the thumbnail that passed the
truthiness and scheme-prefix test of the classifier. -/
theorem classifyRecords_direct_sound (items : List PyVal) :
    ∀ direct queue, classifyRecords items = .ok (direct, queue) →
    ∀ r ∈ direct, r.thumbnailUrl ≠ ""
      ∧ (strStartsWith r.thumbnailUrl "http://" || strStartsWith r.thumbnailUrl "https://") = true := by
  induction items with
  | nil =>
    intro direct queue h r hr
    simp only [classifyRecords, Except.ok.injEq, Prod.mk.injEq] at h
    obtain ⟨rfl, rfl⟩ := h
    simp at hr
  | cons item rest ih =>
    intro direct queue h r hr
    simp only [classifyRecords] at h
    cases h1 : get_simple_field item URI_RECORDID with
    | error e => simp [h1] at h
    | ok record_id =>
      simp only [h1] at h
      cases h2 : get_simple_field item URI_TITLE with
      | error e => simp [h2] at h
      | ok title =>
        simp only [h2] at h
        cases h3 : get_simple_field item URI_THUMBNAIL with
        | error e => simp [h3] at h
        | ok thumbnail =>
          simp only [h3] at h
          cases h4 : classifyRecords rest with
          | error e => simp [h4] at h
          | ok rr =>
            simp only [h4] at h
            obtain ⟨dr, qr⟩ := rr
            split at h
            · next rid heq =>
              simp only [Except.ok.injEq, Prod.mk.injEq] at h
              obtain ⟨rfl, rfl⟩ := h
              exact ih dr qr h4 r hr
            · next hne =>
              split at h
              · next hcond =>
                simp only [Except.ok.injEq, Prod.mk.injEq] at h
                obtain ⟨rfl, rfl⟩ := h
                rw [List.mem_cons] at hr
                cases hr with
                | inr htl => exact ih dr qr h4 r htl
                | inl hhd =>
                  subst hhd
                  cases h5 : thumbnail with
                  | none => rw [h5] at hcond; simp at hcond
                  | some ts =>
                    rw [h5] at hcond
                    simp only [Bool.and_eq_true, decide_eq_true_eq] at hcond
                    simp only [h5, Option.getD_some]
                    exact ⟨hcond.1, hcond.2⟩
              · next hcond =>
                simp only [Except.ok.injEq, Prod.mk.injEq] at h
                obtain ⟨rfl, rfl⟩ := h
                exact ih dr qr h4 r hr

/-- A manifest whose only image resource identifier is the relative path
foo.jpg: it qualifies for selection although it has no URL scheme. -/
def relativeIdManifest : PyVal :=
  .dict [("sequences", .list [.dict [("canvases", .list [.dict [("images",
    .list [.dict [("resource", .dict [("@id", .str "foo.jpg")])]])]])]])]

/-- C3 counterexample: the Image Resolution Engine emits an ImageRecord
whose thumbnailUrl is foo.jpg — non-empty but not scheme-prefixed — when
the manifest fallback selects a relative identifier, because the fallback
filter only checks the extension and the logo substring, never the scheme. -/
theorem C3_counterexample :
    resolveImages (fun _ => .ok relativeIdManifest) (.list [.dict [(URI_RECORDID, .str "r1")]])
      = .ok [{ recordId := some "r1", title := Option.none, thumbnailUrl := "foo.jpg" }]
    ∧ (strStartsWith "foo.jpg" "http://" || strStartsWith "foo.jpg" "https://") = false := by
  exact ⟨rfl, rfl⟩

/-- C3 (amended): every ImageRecord the engine emits has a non-empty
thumbnailUrl, and that url is scheme-prefixed when it came from the direct
tier or ends in .jpg or .png (case-insensitively) when it came from the
manifest fallback; the original claim that both tiers guarantee a scheme
prefix fails on the fallback tier. -/
theorem C3_amended (mfetch : String → Except String PyVal) (current_items : PyVal)
    (recs : List ImageRecord) (h : resolveImages mfetch current_items = .ok recs) :
    ∀ r ∈ recs, r.thumbnailUrl ≠ ""
      ∧ ((strStartsWith r.thumbnailUrl "http://" || strStartsWith r.thumbnailUrl "https://") = true
        ∨ (strEndsWith (strLower r.thumbnailUrl) ".jpg"
            || strEndsWith (strLower r.thumbnailUrl) ".png") = true) := by
  intro r hr
  simp only [resolveImages] at h
  cases h1 : pyIterate current_items with
  | error e => simp [h1] at h
  | ok items =>
    simp only [h1] at h
    cases h2 : classifyRecords items with
    | error e => simp [h2] at h
    | ok rr =>
      simp only [h2, Except.ok.injEq] at h
      subst h
      rw [List.mem_append] at hr
      cases hr with
      | inl hd =>
        obtain ⟨hne, hpre⟩ := classifyRecords_direct_sound items rr.1 rr.2 (by rw [h2]) r hd
        exact ⟨hne, Or.inl hpre⟩
      | inr hf =>
        obtain ⟨hne, hq⟩ := fanOutManifests_sound mfetch rr.2 r hf
        refine ⟨hne, Or.inr ?_⟩
        simp only [qualifiesImageId, Bool.and_eq_true] at hq
        exact hq.1

/-- C3 witness: the amended invariant applied at the concrete fallback run
that produced the relative identifier foo.jpg. -/
theorem C3_witness :
    ("foo.jpg" : String) ≠ ""
      ∧ ((strStartsWith "foo.jpg" "http://" || strStartsWith "foo.jpg" "https://") = true
        ∨ (strEndsWith (strLower "foo.jpg") ".jpg"
            || strEndsWith (strLower "foo.jpg") ".png") = true) :=
  C3_amended (fun _ => .ok relativeIdManifest) (.list [.dict [(URI_RECORDID, .str "r1")]]) _ rfl
    { recordId := some "r1", title := Option.none, thumbnailUrl := "foo.jpg" }
    (List.mem_singleton.mpr rfl)

/-- C10: once a recordId argument is present, handle_get_manifest returns
a text payload for every collaborator behaviour instead of raising, so the
gather in the composer never collects an Exception for a manifest task;
the error text it returns on failure fails json parsing, and that parse
failure (caught by the per-record try/except) is what excludes the failed
record from items_images. -/
theorem C10_manifest_error_containment :
    (∀ (fetch : String → Except String PyVal) (args : PyDict) (rid : PyVal),
      dictGet args "recordId" = some rid →
      ∃ ts, handle_get_manifest fetch args = .ok ts)
    ∧ (∀ e : String, jsonLoads ("Error retrieving manifest: " ++ e) = Option.none)
    ∧ (∀ (mfetch : String → Except String PyVal) (rid : String) (title : Option String)
        (e : String), mfetch (manifestUrl (.str rid)) = .error e →
        fanOutManifests mfetch [(rid, title)] = []) := by
  refine ⟨?_, jsonLoads_manifest_error, ?_⟩
  · intro fetch args rid hrid
    simp only [handle_get_manifest, hrid]
    cases fetch (manifestUrl rid) with
    | ok data => exact ⟨_, rfl⟩
    | error e => exact ⟨_, rfl⟩
  · intro mfetch rid title e he
    have hget : handle_get_manifest mfetch [("recordId", PyVal.str rid)]
        = .ok [.plain ("Error retrieving manifest: " ++ e)] := by
      simp only [handle_get_manifest,
        show dictGet [("recordId", PyVal.str rid)] "recordId" = some (PyVal.str rid) from rfl,
        he]
    simp only [fanOutManifests, hget, processManifestText, textOf,
      jsonLoads_manifest_error, List.append_nil]

/-- C10 witness: the containment statement applied to a collaborator that
always fails with the message boom. -/
theorem C10_witness :
    (∃ ts, handle_get_manifest (fun _ => .error "boom") [("recordId", PyVal.str "r1")] = .ok ts)
    ∧ jsonLoads ("Error retrieving manifest: " ++ "boom") = Option.none
    ∧ fanOutManifests (fun _ => .error "boom") [("r1", Option.none)] = [] :=
  ⟨C10_manifest_error_containment.1 _ _ (PyVal.str "r1") rfl,
    C10_manifest_error_containment.2.1 "boom",
    C10_manifest_error_containment.2.2 _ "r1" Option.none "boom" rfl⟩

/-- A backend search envelope reporting 7 matches over 7 records (the
records carry no usable fields, so no images resolve). -/
def sevenEnvelope : PyVal :=
  .dict [("total_results", .int 7), ("items", .list (List.replicate 7 (.dict [])))]

/-- A manifest collaborator that is never consulted in the C1 scenario. -/
def noManifests : String → Except String PyVal := fun _ => .error "unreachable"

/-- The payload the composer renders for the 7-match backend at request
offset 6: the display range is still 1-3 and more results are announced at
offset 3, because the composer reads its offset and limit out of the parsed
search envelope, which never carries them. -/
def composedAtOffset6 : MainPayload :=
  { total_results := .int 7
    results_start := .int 1
    results_end := .int 3
    current_batch_size := 1
    has_more := true
    next_offset := some (.int 3)
    search_data := .dict [("total_results", .int 7), ("items", .list [.dict []])]
    items_images := []
    user_query := .str "u" }

/-- The payload the composer renders for the same backend at offset 0. -/
def composedAtOffset0 : MainPayload :=
  { total_results := .int 7
    results_start := .int 1
    results_end := .int 3
    current_batch_size := 3
    has_more := true
    next_offset := some (.int 3)
    search_data := .dict [("total_results", .int 7),
      ("items", .list [.dict [], .dict [], .dict []])]
    items_images := []
    user_query := .str "u" }

/-- C1 counterexample: with total_results = 7 and the fixed page size 3,
invoking the composer at offset 6 still renders hasMore = true with a
continuation payload naming offset 3 — not the claimed hasMore = false
with no continuation. -/
theorem C1_counterexample :
    handle_generate_response (.ok sevenEnvelope) noManifests
        [("user_query", .str "u"), ("q", .str "x"), ("offset", .int 6)]
      = [.composedMain composedAtOffset6, .continuation (.int 4) (.int 3) (.int 3)]
    ∧ composedAtOffset6.has_more = true := by
  exact ⟨rfl, rfl⟩

/-- C1 (amended): for a backend reporting total_results = 7 with the fixed
page size 3, the composer renders hasMore = true and nextOffset = 3 at
offset 0 and again at offset 6 — the effective offset in the range
computation is always the 0 default, because it is read from the search
envelope rather than from the invocation arguments, so end =
min(7 - 0, 0 + 3) = 3 < 7 at every request offset. -/
theorem C1_amended :
    handle_generate_response (.ok sevenEnvelope) noManifests
        [("user_query", .str "u"), ("q", .str "x"), ("offset", .int 0)]
      = [.composedMain composedAtOffset0, .continuation (.int 4) (.int 3) (.int 3)]
    ∧ handle_generate_response (.ok sevenEnvelope) noManifests
        [("user_query", .str "u"), ("q", .str "x"), ("offset", .int 6)]
      = [.composedMain composedAtOffset6, .continuation (.int 4) (.int 3) (.int 3)] := by
  exact ⟨rfl, rfl⟩

/-- The identifier of one manifest image entry with the source defaults
applied (missing resource, missing @id become the empty string). -/
def imageIdOf (img : PyVal) : String :=
  match img with
  | .dict d =>
    match (dictGet d "resource").getD (.dict []) with
    | .dict r =>
      match (dictGet r "@id").getD (.str "") with
      | .str s => s
      | _ => ""
    | _ => ""
  | _ => ""

/-- The identifiers of one canvas, in document order. -/
def canvasImageIds (c : PyVal) : List String :=
  match c with
  | .dict d =>
    match (dictGet d "images").getD (.list []) with
    | .list imgs => imgs.map imageIdOf
    | _ => []
  | _ => []

/-- All identifiers of a canvas list, in document order. -/
def manifestImageIds (canvases : List PyVal) : List String :=
  canvases.flatMap canvasImageIds

/-- Image entries on which the dynamic accesses cannot raise: a dict whose
resource defaults to a dict whose @id defaults to a str. -/
def wfImage (img : PyVal) : Bool :=
  match img with
  | .dict d =>
    match (dictGet d "resource").getD (.dict []) with
    | .dict r =>
      match (dictGet r "@id").getD (.str "") with
      | .str _ => true
      | _ => false
    | _ => false
  | _ => false

/-- Canvases on which the dynamic accesses cannot raise. -/
def wfCanvas (c : PyVal) : Bool :=
  match c with
  | .dict d =>
    match (dictGet d "images").getD (.list []) with
    | .list imgs => imgs.all wfImage
    | _ => false
  | _ => false

/-- On well-formed images the dynamic identifier access agrees with the
pure extraction. -/
theorem imgResourceId_wf (img : PyVal) (h : wfImage img = true) :
    imgResourceId img = .ok (imageIdOf img) := by
  cases img with
  | dict d =>
    simp only [wfImage] at h
    simp only [imgResourceId, imageIdOf, pyGetD]
    cases hr : (dictGet d "resource").getD (.dict []) with
    | dict r =>
      simp only [hr] at h ⊢
      cases hi : (dictGet r "@id").getD (.str "") with
      | str s => simp [hi]
      | none => rw [hi] at h; exact Bool.noConfusion h
      | bool b => rw [hi] at h; exact Bool.noConfusion h
      | int n => rw [hi] at h; exact Bool.noConfusion h
      | list xs => rw [hi] at h; exact Bool.noConfusion h
      | dict kvs => rw [hi] at h; exact Bool.noConfusion h
    | none => rw [hr] at h; exact Bool.noConfusion h
    | bool b => rw [hr] at h; exact Bool.noConfusion h
    | int n => rw [hr] at h; exact Bool.noConfusion h
    | str s => rw [hr] at h; exact Bool.noConfusion h
    | list xs => rw [hr] at h; exact Bool.noConfusion h
  | none => exact Bool.noConfusion h
  | bool b => exact Bool.noConfusion h
  | int n => exact Bool.noConfusion h
  | str s => exact Bool.noConfusion h
  | list xs => exact Bool.noConfusion h

/-- find? distributes over append through orElse. -/
theorem find?_append_or {α : Type} (p : α → Bool) (l1 l2 : List α) :
    List.find? p (l1 ++ l2) = ((List.find? p l1).orElse (fun _ => List.find? p l2)) := by
  induction l1 with
  | nil => simp
  | cons a l ih =>
    cases hp : p a with
    | true => simp [List.find?_cons_of_pos, hp]
    | false => simp [List.find?_cons_of_neg, hp, ih]

/-- On well-formed images the inner scan is the first filter hit. -/
theorem scanImages_wf (imgs : List PyVal) (h : imgs.all wfImage = true) :
    scanImages imgs = .ok (List.find? qualifiesImageId (imgs.map imageIdOf)) := by
  induction imgs with
  | nil => rfl
  | cons img rest ih =>
    simp only [List.all_cons, Bool.and_eq_true] at h
    simp only [scanImages, imgResourceId_wf img h.1, List.map_cons]
    cases hq : qualifiesImageId (imageIdOf img) with
    | true => simp [List.find?_cons_of_pos, hq]
    | false => simp [List.find?_cons_of_neg, hq, ih h.2]

/-- On well-formed canvases the whole scan is the first filter hit over the
flattened identifier list, canvas order preserved. -/
theorem scanCanvases_wf (cs : List PyVal) (h : cs.all wfCanvas = true) :
    scanCanvases cs = .ok (List.find? qualifiesImageId (manifestImageIds cs)) := by
  induction cs with
  | nil => rfl
  | cons canvas rest ih =>
    simp only [List.all_cons, Bool.and_eq_true] at h
    obtain ⟨hc, hrest⟩ := h
    cases canvas with
    | dict d =>
      simp only [wfCanvas] at hc
      cases hi : (dictGet d "images").getD (.list []) with
      | list imgs =>
        rw [hi] at hc
        have hscan := scanImages_wf imgs hc
        simp only [scanCanvases, pyGetD, hi, pyIterate, hscan]
        simp only [manifestImageIds, List.flatMap_cons, canvasImageIds, hi,
          find?_append_or]
        cases hfind : List.find? qualifiesImageId (imgs.map imageIdOf) with
        | some s => simp [Option.orElse]
        | none => simp [Option.orElse, ih hrest, manifestImageIds]
      | none => rw [hi] at hc; exact Bool.noConfusion hc
      | bool b => rw [hi] at hc; exact Bool.noConfusion hc
      | int n => rw [hi] at hc; exact Bool.noConfusion hc
      | str s => rw [hi] at hc; exact Bool.noConfusion hc
      | dict kvs => rw [hi] at hc; exact Bool.noConfusion hc
    | none => exact Bool.noConfusion hc
    | bool b => exact Bool.noConfusion hc
    | int n => exact Bool.noConfusion hc
    | str s => exact Bool.noConfusion hc
    | list xs => exact Bool.noConfusion hc

/-- The manifest of the spec example: a logo-named png in the first canvas,
real.jpg in the second. -/
def specExampleManifest : PyVal :=
  .dict [("sequences", .list [.dict [("canvases", .list [
    .dict [("images", .list [.dict [("resource", .dict [("@id", .str "logoA.png")])]])],
    .dict [("images", .list [.dict [("resource", .dict [("@id", .str "real.jpg")])]])]])]])]

/-- A manifest none of whose identifiers qualify (the only image is
logo-named). -/
def logoOnlyManifest : PyVal :=
  .dict [("sequences", .list [.dict [("canvases", .list [
    .dict [("images", .list [.dict [("resource", .dict [("@id", .str "logoA.png")])]])]])]])]

/-- C8: on every fetched manifest whose first sequence carries well-formed
canvases the fallback selects exactly the first identifier, in canvas
document order, that ends in .jpg or .png case-insensitively and does not
contain logo case-insensitively — only the first sequence is scanned (the
remaining sequences are arbitrary); on the spec example the selection is
real.jpg; and when no identifier qualifies the engine emits no ImageRecord
for the record. -/
theorem C8_manifest_selection :
    (∀ (md : PyDict) (sd : PyDict) (restSeqs : List PyVal) (canvases : List PyVal),
      dictGet md "sequences" = some (.list (.dict sd :: restSeqs)) →
      dictGet sd "canvases" = some (.list canvases) →
      canvases.all wfCanvas = true →
      select_image_url (.dict md) = .ok (List.find? qualifiesImageId (manifestImageIds canvases)))
    ∧ select_image_url specExampleManifest = .ok (some "real.jpg")
    ∧ resolveImages (fun _ => .ok logoOnlyManifest) (.list [.dict [(URI_RECORDID, .str "r1")]])
        = .ok [] := by
  refine ⟨?_, rfl, rfl⟩
  intro md sd restSeqs canvases hseq hcan hwf
  simp only [select_image_url, pyGetD, hseq, Option.getD_some, pyTruthy, List.isEmpty_cons,
    Bool.not_false, if_true, pyIndexFirst, hcan, pyIterate]
  exact scanCanvases_wf canvases hwf

/-- C8 witness: the selection characterization applied at the concrete
two-canvas example manifest. -/
theorem C8_witness :
    select_image_url (.dict [("sequences", .list [.dict [("canvases", .list [
        .dict [("images", .list [.dict [("resource", .dict [("@id", .str "logoA.png")])]])],
        .dict [("images", .list [.dict [("resource", .dict [("@id", .str "real.jpg")])]])]])],
      .list []])])
      = .ok (List.find? qualifiesImageId (manifestImageIds [
        .dict [("images", .list [.dict [("resource", .dict [("@id", .str "logoA.png")])]])],
        .dict [("images", .list [.dict [("resource", .dict [("@id", .str "real.jpg")])]])]])) :=
  C8_manifest_selection.1 _ _ [.list []] _ rfl rfl (by rfl)

/-- The shape of the prompt chain the Batch Streamer emits from a given
cursor: each report covers the slice at its cursor, announces the next
cursor, and the chain advances by batch_size until the cursor passes the
item count. -/
def promptChain (items : List PyVal) (n : Int) (tr ii : PyVal) (uq : String) (bs : Int) :
    Int → List TextContent → Prop
  | offset, [] => offset ≥ n
  | offset, r :: rest =>
    offset < n
    ∧ r = TextContent.batchPrompt (offset + 1) (min (offset + bs) n) n tr
        (.list (sliceList items offset (offset + bs))) ii uq (offset + bs)
        (max 0 (n - min (offset + bs) n))
    ∧ promptChain items n tr ii uq bs (offset + bs) rest

/-- The context slice a report carries. -/
def contextItemsOf : TextContent → List PyVal
  | .batchPrompt _ _ _ _ (.list l) _ _ _ _ => l
  | _ => []

/-- The remaining counter a non-terminal report carries. -/
def reportRemaining : TextContent → Option Int
  | .batchPrompt _ _ _ _ _ _ _ _ rem => some rem
  | _ => Option.none

/-- The continuation offset a report carries (the terminal completion
report carries none). -/
def reportNextOffset : TextContent → Option Int
  | .batchPrompt _ _ _ _ _ _ _ nx _ => some nx
  | _ => Option.none

/-- The 1-indexed window of a report ((0, n) for the terminal report). -/
def windowOf : TextContent → Int × Int
  | .batchPrompt s e _ _ _ _ _ _ _ => (s, e)
  | .batchComplete n _ _ => (0, n)
  | _ => (0, 0)

/-- Master description of stream_batches_go: with positive batch size and
enough fuel the recursion returns the prompt chain from the cursor followed
by exactly one terminal completion report. -/
theorem stream_batches_go_spec (items : List PyVal) (tr ii : PyVal) (uq : String) (bs : Int)
    (hbs : 1 ≤ bs) :
    ∀ (fuel : Nat) (offset : Int),
      ((items.length : Int) - offset).toNat < fuel →
      ∃ prompts,
        stream_batches_go uq (.list items) (items.length : Int) tr ii bs fuel offset
          = .ok (prompts ++ [.batchComplete (items.length : Int) tr uq])
        ∧ promptChain items (items.length : Int) tr ii uq bs offset prompts := by
  intro fuel
  induction fuel with
  | zero => intro offset h; omega
  | succ f ih =>
    intro offset hf
    by_cases hoff : offset ≥ (items.length : Int)
    · refine ⟨[], ?_, hoff⟩
      simp [stream_batches_go, hoff]
    · push_neg at hoff
      have hbs0 : ¬ bs ≤ 0 := by omega
      obtain ⟨prompts, hgo, hchain⟩ := ih (offset + bs) (by omega)
      refine ⟨TextContent.batchPrompt (offset + 1) (min (offset + bs) (items.length : Int))
          (items.length : Int) tr (.list (sliceList items offset (offset + bs))) ii uq
          (offset + bs) (max 0 ((items.length : Int) - min (offset + bs) (items.length : Int)))
          :: prompts, ?_, ?_⟩
      · simp only [stream_batches_go, if_neg (not_le.mpr hoff), if_neg hbs0,
          pySliceVal, intOf, hgo]
        rfl
      · exact ⟨hoff, rfl, hchain⟩

/-- One Python slice step glues back onto the remaining suffix. -/
theorem sliceList_append_drop (items : List PyVal) (offset bs : Int)
    (h0 : 0 ≤ offset) (hbs : 0 ≤ bs) :
    sliceList items offset (offset + bs) ++ items.drop ((offset + bs).toNat)
      = items.drop offset.toNat := by
  unfold sliceList sliceNorm
  rw [if_neg (by omega), if_neg (by omega)]
  have hs : min offset.toNat items.length ≤ min (offset + bs).toNat items.length := by
    have : offset.toNat ≤ (offset + bs).toNat := by omega
    omega
  have hdropt : items.drop ((offset + bs).toNat)
      = items.drop (min (offset + bs).toNat items.length) := by
    by_cases hL : (offset + bs).toNat ≤ items.length
    · rw [Nat.min_eq_left hL]
    · rw [Nat.min_eq_right (by omega)]
      rw [List.drop_eq_nil_of_le (by omega), List.drop_eq_nil_of_le (le_refl _)]
  have hdrops : items.drop offset.toNat = items.drop (min offset.toNat items.length) := by
    by_cases hL : offset.toNat ≤ items.length
    · rw [Nat.min_eq_left hL]
    · rw [Nat.min_eq_right (by omega)]
      rw [List.drop_eq_nil_of_le (by omega), List.drop_eq_nil_of_le (le_refl _)]
  rw [hdropt, hdrops]
  have hdd : items.drop (min (offset + bs).toNat items.length)
      = (items.drop (min offset.toNat items.length)).drop
          (min (offset + bs).toNat items.length - min offset.toNat items.length) := by
    rw [List.drop_drop]
    congr 1
    omega
  rw [hdd, List.take_append_drop]

/-- The chain covers exactly the item suffix from its cursor. -/
theorem promptChain_coverage (items : List PyVal) (tr ii : PyVal) (uq : String) (bs : Int)
    (hbs : 1 ≤ bs) :
    ∀ (ps : List TextContent) (offset : Int), 0 ≤ offset →
      promptChain items (items.length : Int) tr ii uq bs offset ps →
      ps.flatMap contextItemsOf = items.drop offset.toNat := by
  intro ps
  induction ps with
  | nil =>
    intro offset h0 hchain
    have : items.length ≤ offset.toNat := by
      have := hchain
      simp only [promptChain] at this
      omega
    simp [List.drop_eq_nil_of_le this]
  | cons r rest ih =>
    intro offset h0 hchain
    obtain ⟨hlt, hr, hrest⟩ := hchain
    subst hr
    rw [List.flatMap_cons, ih (offset + bs) (by omega) hrest]
    simp only [contextItemsOf]
    exact sliceList_append_drop items offset bs h0 (by omega)

/-- The last non-terminal report of a chain has remaining 0. -/
theorem promptChain_last_remaining (items : List PyVal) (tr ii : PyVal) (uq : String)
    (bs : Int) :
    ∀ (ps : List TextContent) (offset : Int),
      promptChain items (items.length : Int) tr ii uq bs offset ps →
      ∀ r, ps.getLast? = some r → reportRemaining r = some 0 := by
  intro ps
  induction ps with
  | nil => intro offset hchain r hr; simp at hr
  | cons a rest ih =>
    intro offset hchain r hr
    obtain ⟨hlt, ha, hrest⟩ := hchain
    cases rest with
    | nil =>
      simp only [List.getLast?_singleton, Option.some.injEq] at hr
      subst hr
      subst ha
      have hend : offset + bs ≥ (items.length : Int) := hrest
      simp only [reportRemaining, Option.some.injEq]
      omega
    | cons b tail =>
      rw [List.getLast?_cons_cons] at hr
      exact ih (offset + bs) hrest r hr

/-- Every report of a chain is a batchPrompt carrying the continuation
offset cursor + batch_size, also when its remaining counter is 0. -/
theorem promptChain_mem (items : List PyVal) (tr ii : PyVal) (uq : String) (bs : Int)
    (hbs : 1 ≤ bs) :
    ∀ (ps : List TextContent) (offset : Int), 0 ≤ offset →
      promptChain items (items.length : Int) tr ii uq bs offset ps →
      ∀ r ∈ ps, ∃ o : Int, 0 ≤ o
        ∧ r = TextContent.batchPrompt (o + 1) (min (o + bs) (items.length : Int))
            (items.length : Int) tr (.list (sliceList items o (o + bs))) ii uq (o + bs)
            (max 0 ((items.length : Int) - min (o + bs) (items.length : Int))) := by
  intro ps
  induction ps with
  | nil => intro offset h0 hchain r hr; simp at hr
  | cons a rest ih =>
    intro offset h0 hchain r hr
    obtain ⟨hlt, ha, hrest⟩ := hchain
    rw [List.mem_cons] at hr
    cases hr with
    | inl hhd => exact ⟨offset, h0, by rw [hhd, ha]⟩
    | inr htl => exact ih (offset + bs) (by omega) hrest r htl

/-- On a well-formed envelope the wrapper hands stream_batches_go the item
list, its length and the fuel bound. -/
theorem stream_batches_wrapped (items : List PyVal) (tr ii : PyVal) (uq : String)
    (offset bs : Int) :
    stream_batches uq (.dict [("items", .list items), ("total_results", tr)]) ii offset bs
      = stream_batches_go uq (.list items) (items.length : Int) tr ii bs
          (((items.length : Int) - offset).toNat + 1) offset := by
  rfl

/-- The 25 integer items of the spec example. -/
def items25 : List PyVal := (List.range 25).map (fun i => .int (i : Int))

/-- C7: starting at offset 0 with batch_size ≥ 1 the report chain is a run
of batch prompts followed by exactly one terminal completion report (the
terminal state offset ≥ len(items)); the prompt slices concatenate to the
item list exactly (no gaps, no overlaps, order preserved); the last
non-terminal report has remaining = 0; and for 25 items with batch size 10
the windows are 1-10, 11-20, 21-25 before the terminal report. -/
theorem C7_batch_partition :
    (∀ (items : List PyVal) (tr ii : PyVal) (uq : String) (bs : Int), 1 ≤ bs →
      ∃ prompts,
        stream_batches uq (.dict [("items", .list items), ("total_results", tr)]) ii 0 bs
          = .ok (prompts ++ [.batchComplete (items.length : Int) tr uq])
        ∧ prompts.flatMap contextItemsOf = items
        ∧ (∀ r, prompts.getLast? = some r → reportRemaining r = some 0)
        ∧ promptChain items (items.length : Int) tr ii uq bs 0 prompts)
    ∧ (stream_batches "u" (.dict [("items", .list items25), ("total_results", .int 100)])
          (.list []) 0 10).map (fun rs => rs.map windowOf)
      = .ok [(1, 10), (11, 20), (21, 25), (0, 25)] := by
  constructor
  · intro items tr ii uq bs hbs
    obtain ⟨prompts, hgo, hchain⟩ :=
      stream_batches_go_spec items tr ii uq bs hbs (((items.length : Int) - 0).toNat + 1) 0
        (by omega)
    refine ⟨prompts, ?_, ?_, ?_, hchain⟩
    · rw [stream_batches_wrapped]; exact hgo
    · have hcov := promptChain_coverage items tr ii uq bs hbs prompts 0 (le_refl 0) hchain
      simpa using hcov
    · exact promptChain_last_remaining items tr ii uq bs prompts 0 hchain
  · rfl

/-- C7 witness: the partition statement applied at the 25-item envelope
with batch size 10. -/
theorem C7_witness :
    ∃ prompts,
      stream_batches "u" (.dict [("items", .list items25), ("total_results", .int 100)])
          (.list []) 0 10
        = .ok (prompts ++ [.batchComplete (items25.length : Int) (.int 100) "u"])
      ∧ prompts.flatMap contextItemsOf = items25
      ∧ (∀ r, prompts.getLast? = some r → reportRemaining r = some 0)
      ∧ promptChain items25 (items25.length : Int) (.int 100) (.list []) "u" 10 0 prompts :=
  C7_batch_partition.1 items25 (.int 100) (.list []) "u" 10 (by norm_num)

/-- C6 counterexample: for a 3-item envelope with batch size 10 the single
active report has remaining = 0 and still carries the continuation offset
10, so nextOffset = null iff remaining = 0 fails in both directions on the
active side. -/
theorem C6_counterexample :
    stream_batches "u"
        (.dict [("items", .list [.int 1, .int 2, .int 3]), ("total_results", .int 3)])
        (.list []) 0 10
      = .ok [.batchPrompt 1 3 3 (.int 3) (.list [.int 1, .int 2, .int 3]) (.list []) "u" 10 0,
          .batchComplete 3 (.int 3) "u"]
    ∧ reportRemaining
        (.batchPrompt 1 3 3 (.int 3) (.list [.int 1, .int 2, .int 3]) (.list []) "u" 10 0)
      = some 0
    ∧ reportNextOffset
        (.batchPrompt 1 3 3 (.int 3) (.list [.int 1, .int 2, .int 3]) (.list []) "u" 10 0)
      = some 10 :=
  ⟨rfl, rfl, rfl⟩

/-- C6 (amended): every active report carries the continuation offset
cursor + batch_size — also when its remaining counter is already 0 — and
the continuation offset is absent exactly on the one terminal completion
report; so nextOffset is null iff the report is terminal, not iff
remaining = 0. -/
theorem C6_amended (items : List PyVal) (tr ii : PyVal) (uq : String) (bs : Int)
    (hbs : 1 ≤ bs) :
    ∃ prompts,
      stream_batches uq (.dict [("items", .list items), ("total_results", tr)]) ii 0 bs
        = .ok (prompts ++ [.batchComplete (items.length : Int) tr uq])
      ∧ (∀ r ∈ prompts, ∃ o : Int, 0 ≤ o
          ∧ r = TextContent.batchPrompt (o + 1) (min (o + bs) (items.length : Int))
              (items.length : Int) tr (.list (sliceList items o (o + bs))) ii uq (o + bs)
              (max 0 ((items.length : Int) - min (o + bs) (items.length : Int))))
      ∧ (∀ r ∈ prompts, reportNextOffset r ≠ Option.none)
      ∧ reportNextOffset (TextContent.batchComplete (items.length : Int) tr uq)
          = Option.none := by
  obtain ⟨prompts, hgo, hchain⟩ :=
    stream_batches_go_spec items tr ii uq bs hbs (((items.length : Int) - 0).toNat + 1) 0
      (by omega)
  have hmem := promptChain_mem items tr ii uq bs hbs prompts 0 (le_refl 0) hchain
  refine ⟨prompts, ?_, hmem, ?_, rfl⟩
  · rw [stream_batches_wrapped]; exact hgo
  · intro r hr
    obtain ⟨o, _, rfl⟩ := hmem r hr
    simp [reportNextOffset]

/-- C6 witness: the amended statement applied at the 3-item envelope with
batch size 10. -/
theorem C6_witness :
    ∃ prompts,
      stream_batches "u"
          (.dict [("items", .list [.int 1, .int 2, .int 3]), ("total_results", .int 3)])
          (.list []) 0 10
        = .ok (prompts
            ++ [.batchComplete (([PyVal.int 1, .int 2, .int 3].length : Nat) : Int) (.int 3) "u"])
      ∧ (∀ r ∈ prompts, ∃ o : Int, 0 ≤ o
          ∧ r = TextContent.batchPrompt (o + 1)
              (min (o + 10) (([PyVal.int 1, .int 2, .int 3].length : Nat) : Int))
              (([PyVal.int 1, .int 2, .int 3].length : Nat) : Int) (.int 3)
              (.list (sliceList [PyVal.int 1, .int 2, .int 3] o (o + 10))) (.list []) "u" (o + 10)
              (max 0 ((([PyVal.int 1, .int 2, .int 3].length : Nat) : Int)
                - min (o + 10) (([PyVal.int 1, .int 2, .int 3].length : Nat) : Int))))
      ∧ (∀ r ∈ prompts, reportNextOffset r ≠ Option.none)
      ∧ reportNextOffset
          (TextContent.batchComplete (([PyVal.int 1, .int 2, .int 3].length : Nat) : Int)
            (.int 3) "u")
          = Option.none :=
  C6_amended [.int 1, .int 2, .int 3] (.int 3) (.list []) "u" 10 (by norm_num)
